import Mathlib

/-!
Shallow embedding of the vapush core (`src/index.ts`) and its HTTP secret
check (`src/server.ts`).

The subscription store `this.subscriptions : Record<string, StoredSubscription>`
is modelled as an association list with unique keys, using JavaScript object
semantics: assignment updates an existing key in place (keeping its position)
or appends a new one, `delete` removes the key, `Object.keys` lists keys in
insertion order.

Persisted JSON files are modelled at the level of a JSON value AST (`Json`):
`JSON.stringify` of the in-memory data is the corresponding `Json` value and
`JSON.parse` of well-formed file content recovers it.  A file may also be
`missing` (read throws ENOENT) or `corrupt` (JSON.parse throws); both are
relevant to the catch branches of `loadSubscriptions` and `loadOrCreateKeys`.

The external delivery collaborator `webPush.sendNotification` is modelled as
an oracle parameter giving the outcome of each delivery attempt; an outcome is
either success or an error carrying an optional HTTP status code, exactly the
shape the dispatcher inspects (`err.statusCode`).
-/

/-- `Subscription` from src/index.ts: endpoint URL plus the two encryption
key fields. -/
structure Subscription where
  endpoint : String
  p256dh : String
  auth : String
deriving DecidableEq, Repr, Inhabited

/-- `StoredSubscription` from src/index.ts: the endpoint descriptor plus the
creation timestamp and the optional display name. -/
structure StoredSubscription where
  subscription : Subscription
  createdAt : String
  name : Option String
deriving DecidableEq, Repr, Inhabited

/-- `VapidKeys` from src/index.ts. -/
structure VapidKeys where
  publicKey : String
  privateKey : String
  subject : String
deriving DecidableEq, Repr, Inhabited

/-- JavaScript object read `m[k]`: the value bound to key `k`, if present. -/
def objGet (m : List (String × α)) (k : String) : Option α :=
  (m.find? (fun p => p.1 = k)).map Prod.snd

/-- JavaScript object write `m[k] = v`: overwrite the binding in place when
the key exists, append otherwise. -/
def objSet (m : List (String × α)) (k : String) (v : α) : List (String × α) :=
  if m.any (fun p => p.1 = k) then
    m.map (fun p => if p.1 = k then (k, v) else p)
  else
    m ++ [(k, v)]

/-- JavaScript `delete m[k]`. -/
def objDelete (m : List (String × α)) (k : String) : List (String × α) :=
  m.filter (fun p => p.1 ≠ k)

/-- JSON value AST, restricted to the shapes this program writes and reads. -/
inductive Json where
  | str (s : String)
  | obj (fields : List (String × Json))
deriving Repr

/-- Field lookup in a JSON object, as `JSON.parse` output property access. -/
def jsonField (fields : List (String × Json)) (k : String) : Option Json :=
  (fields.find? (fun p => p.1 = k)).map Prod.snd

/-- Read a JSON value as a string. -/
def Json.asStr : Json → Option String
  | .str s => some s
  | _ => none

/-- Content of a persisted file: absent, unparseable, or a JSON value. -/
inductive FileContent where
  | missing
  | corrupt
  | content (j : Json)

/-- JSON.stringify of a `Subscription` object. -/
def encodeSubscription (s : Subscription) : Json :=
  .obj [("endpoint", .str s.endpoint),
        ("keys", .obj [("p256dh", .str s.p256dh), ("auth", .str s.auth)])]

/-- Typed reading of a JSON value as a `Subscription`. -/
def decodeSubscription (j : Json) : Option Subscription :=
  match j with
  | .obj fs => do
      let ep ← (← jsonField fs "endpoint").asStr
      match ← jsonField fs "keys" with
      | .obj ks => do
          let p ← (← jsonField ks "p256dh").asStr
          let a ← (← jsonField ks "auth").asStr
          some ⟨ep, p, a⟩
      | _ => none
  | _ => none

/-- JSON.stringify of a `StoredSubscription`.  When `name` is `undefined`
JSON.stringify omits the property. -/
def encodeStoredSubscription (s : StoredSubscription) : Json :=
  .obj ([("subscription", encodeSubscription s.subscription),
         ("createdAt", .str s.createdAt)] ++
        (match s.name with
         | some n => [("name", .str n)]
         | none => []))

/-- Typed reading of a JSON value as a `StoredSubscription`; an absent `name`
property reads back as `undefined`. -/
def decodeStoredSubscription (j : Json) : Option StoredSubscription :=
  match j with
  | .obj fs => do
      let sub ← decodeSubscription (← jsonField fs "subscription")
      let ca ← (← jsonField fs "createdAt").asStr
      let nm := match jsonField fs "name" with
                | some (.str n) => some n
                | _ => none
      some ⟨sub, ca, nm⟩
  | _ => none

/-- JSON.stringify of the whole subscription map. -/
def encodeSubs (m : List (String × StoredSubscription)) : Json :=
  .obj (m.map (fun p => (p.1, encodeStoredSubscription p.2)))

/-- Typed reading of a JSON value as a subscription map. -/
def decodeSubs (j : Json) : Option (List (String × StoredSubscription)) :=
  match j with
  | .obj fs => fs.mapM (fun p => (decodeStoredSubscription p.2).map (fun s => (p.1, s)))
  | _ => none

/-- JSON.stringify of a `VapidKeys` record (`vapid.json`). -/
def encodeKeys (k : VapidKeys) : Json :=
  .obj [("publicKey", .str k.publicKey),
        ("privateKey", .str k.privateKey),
        ("subject", .str k.subject)]

/-- Typed reading of a JSON value as a `VapidKeys` record. -/
def decodeKeys (j : Json) : Option VapidKeys :=
  match j with
  | .obj fs => do
      let pub ← (← jsonField fs "publicKey").asStr
      let priv ← (← jsonField fs "privateKey").asStr
      let subj ← (← jsonField fs "subject").asStr
      some ⟨pub, priv, subj⟩
  | _ => none

/-- In-memory store plus the persisted `subscriptions.json`.  `saveCount`
counts calls to `saveSubscriptions`, i.e. rewrites of the persisted file. -/
structure VapushState where
  subscriptions : List (String × StoredSubscription)
  subFile : FileContent
  saveCount : Nat

/-- `saveSubscriptions`: full rewrite of `subscriptions.json` with the
serialized in-memory map. -/
def saveSubscriptions (st : VapushState) : VapushState :=
  ⟨st.subscriptions, .content (encodeSubs st.subscriptions), st.saveCount + 1⟩

/-- `loadSubscriptions`, as a read of the persisted file: a missing file
(readFile throws) or unparseable content (JSON.parse throws) is caught and
defaulted to the empty map.  `JSON.parse` performs no shape validation, so a
well-formed JSON value outside the typed map shape is outside this model and
yields `none`. -/
def loadSubsFromFile : FileContent → Option (List (String × StoredSubscription))
  | .missing => some []
  | .corrupt => some []
  | .content j => decodeSubs j

/-- `loadSubscriptions` on the store state: replaces the in-memory map with
the file content (or the empty map on a caught error). -/
def loadSubscriptions (st : VapushState) : Option VapushState :=
  (loadSubsFromFile st.subFile).map (fun m => ⟨m, st.subFile, st.saveCount⟩)

/-- `subscribe(id, subscription, name?)`: insert or overwrite the record for
`id` with a fresh `createdAt` timestamp (`now`), then persist the full map. -/
def subscribe (st : VapushState) (id : String) (sub : Subscription)
    (name : Option String) (now : String) : VapushState :=
  saveSubscriptions ⟨objSet st.subscriptions id ⟨sub, now, name⟩, st.subFile, st.saveCount⟩

/-- `unsubscribe(id)`: `if (!this.subscriptions[id]) return false`, otherwise
delete, persist, return true. -/
def unsubscribe (st : VapushState) (id : String) : Bool × VapushState :=
  match objGet st.subscriptions id with
  | none => (false, st)
  | some _ => (true, saveSubscriptions ⟨objDelete st.subscriptions id, st.subFile, st.saveCount⟩)

/-- `getSubscriptions()`: `return { ...this.subscriptions }` — the map's
bindings at call time (the shallow-copy aliasing of nested records is
modelled separately with an explicit heap below). -/
def getSubscriptions (st : VapushState) : List (String × StoredSubscription) :=
  st.subscriptions

/-- Outcome of one `webPush.sendNotification` call: resolve, or reject with
an error whose `statusCode` property may be absent. -/
inductive SendResult where
  | ok
  | error (statusCode : Option Nat)
deriving DecidableEq, Repr

/-- The pruning test of the dispatcher: `statusCode === 404 || statusCode === 410`. -/
def isGone (statusCode : Option Nat) : Bool :=
  statusCode == some 404 || statusCode == some 410

/-- Whether an attempt resolved. -/
def SendResult.isOk : SendResult → Bool
  | .ok => true
  | .error _ => false

/-- Whether an attempt rejected with a permanent-invalidity status. -/
def SendResult.isPerm : SendResult → Bool
  | .ok => false
  | .error c => isGone c

/-- JSON.stringify of the `{ title, body, url }` payload;  an `undefined`
`url` is omitted by JSON.stringify. -/
def encodePayload (title body : String) (url : Option String) : Json :=
  .obj ([("title", .str title), ("body", .str body)] ++
        (match url with
         | some u => [("url", .str u)]
         | none => []))

/-- A delivery oracle: the outcome of the delivery attempt for subscriber
`id` with its stored subscription and the serialized payload.  Each id is
attempted exactly once per `push`, so this captures every pattern of
per-attempt outcomes. -/
def SendOracle := String → Subscription → Json → SendResult

/-- The fan-out loop of `push`: over `Object.keys(this.subscriptions)` (one
entry per key, in order), count resolutions and rejections and collect the
ids whose rejection status is 404/410.  `Promise.all` completes all attempts;
completion order only permutes `toRemove`, which is consumed as a set, so the
in-order traversal is faithful. -/
def pushLoop (send : SendOracle) (payload : Json) :
    List (String × StoredSubscription) → Nat × Nat × List String
  | [] => (0, 0, [])
  | (id, stored) :: rest =>
      let r := pushLoop send payload rest
      match send id stored.subscription payload with
      | .ok => (r.1 + 1, r.2.1, r.2.2)
      | .error c => (r.1, r.2.1 + 1, if isGone c then id :: r.2.2 else r.2.2)

/-- `push(title, body, url?)` from src/index.ts: serialize the payload,
attempt delivery to every subscriber, delete the ids collected in `toRemove`,
persist once iff `toRemove.length > 0`, return the counters. -/
def push (st : VapushState) (title body : String) (url : Option String)
    (send : SendOracle) : (Nat × Nat) × VapushState :=
  let payload := encodePayload title body url
  let r := pushLoop send payload st.subscriptions
  let subs2 := r.2.2.foldl objDelete st.subscriptions
  if r.2.2.length > 0 then
    ((r.1, r.2.1), saveSubscriptions ⟨subs2, st.subFile, st.saveCount⟩)
  else
    ((r.1, r.2.1), ⟨subs2, st.subFile, st.saveCount⟩)

/-- `pushTo(id, title, body, url?)`: unknown id returns false with no
attempt; a 404/410 rejection deletes the id and persists; any other
rejection leaves the store unchanged. -/
def pushTo (st : VapushState) (id : String) (title body : String)
    (url : Option String) (send : SendOracle) : Bool × VapushState :=
  match objGet st.subscriptions id with
  | none => (false, st)
  | some stored =>
      let payload := encodePayload title body url
      match send id stored.subscription payload with
      | .ok => (true, st)
      | .error c =>
          if isGone c then
            (false, saveSubscriptions ⟨objDelete st.subscriptions id, st.subFile, st.saveCount⟩)
          else
            (false, st)

/-- `loadOrCreateKeys`: read and JSON.parse `vapid.json`; on any caught error
generate a fresh pair (the `gen` oracle), attach the configured subject,
persist it, and return it.  `JSON.parse` output is returned without shape
validation; content outside the typed `VapidKeys` shape is modelled as
`none`. -/
def loadOrCreateKeys (file : FileContent) (gen : String × String)
    (subject : String) : Option VapidKeys × FileContent :=
  match file with
  | .content j => (decodeKeys j, .content j)
  | _ =>
      let keys : VapidKeys := ⟨gen.1, gen.2, subject⟩
      (some keys, .content (encodeKeys keys))

/-- `checkSecret` from src/server.ts: `provided === secret`, where `provided`
may be `undefined`. -/
def checkSecret (provided : Option String) (secret : String) : Bool :=
  provided == some secret

/-- The `/api/subscribe` route: 401 and no mutation unless the secret
matches, otherwise perform `subscribe` and answer 200. -/
def handleSubscribe (secret : String) (provided : Option String) (id : String)
    (sub : Subscription) (name : Option String) (now : String)
    (st : VapushState) : Nat × VapushState :=
  if checkSecret provided secret then (200, subscribe st id sub name now)
  else (401, st)

/-- The `/api/unsubscribe` route: 401 and no mutation unless the secret
matches, otherwise perform `unsubscribe` and answer 200 with the removed
flag. -/
def handleUnsubscribe (secret : String) (provided : Option String)
    (id : String) (st : VapushState) : Nat × Option Bool × VapushState :=
  if checkSecret provided secret then
    let r := unsubscribe st id
    (200, some r.1, r.2)
  else (401, none, st)

/-- The `/api/subscriptions/SECRET` route: 401 unless the secret matches,
otherwise answer 200 with the map. -/
def handleList (secret : String) (provided : Option String)
    (st : VapushState) : Nat × Option (List (String × StoredSubscription)) × VapushState :=
  if checkSecret provided secret then (200, some (getSubscriptions st), st)
  else (401, none, st)

/-- The `/api/push/SECRET` route: 401 and no delivery unless the secret
matches, otherwise perform `push` and answer 200 with the counters. -/
def handlePush (secret : String) (provided : Option String)
    (title body : String) (url : Option String) (send : SendOracle)
    (st : VapushState) : Nat × Option (Nat × Nat) × VapushState :=
  if checkSecret provided secret then
    let r := push st title body url send
    (200, some r.1, r.2)
  else (401, none, st)

/-!
Reference-level model of `getSubscriptions()` for the snapshot claim.  The
spread `{ ...this.subscriptions }` allocates a NEW map object whose bindings
point to the SAME `StoredSubscription` objects as the store's own map.  To
express aliasing, `StoredSubscription` objects and map objects live in an
explicit heap and maps bind keys to record references.
-/

/-- A JavaScript heap: `StoredSubscription` objects and map objects, each
addressed by its index. -/
structure JsHeap where
  recs : List StoredSubscription
  maps : List (List (String × Nat))
deriving DecidableEq, Repr

/-- The bindings of the map object at reference `m`. -/
def JsHeap.getMap (h : JsHeap) (m : Nat) : List (String × Nat) :=
  h.maps.getD m []

/-- The record object at reference `r`. -/
def JsHeap.getRec (h : JsHeap) (r : Nat) : StoredSubscription :=
  h.recs.getD r default

/-- `getSubscriptions()` in the heap model: `{ ...this.subscriptions }`
allocates a fresh map object carrying the same bindings (key to record
reference) as the store's map at `store`, and returns its reference. -/
def getSubscriptionsHeap (h : JsHeap) (store : Nat) : Nat × JsHeap :=
  (h.maps.length, ⟨h.recs, h.maps ++ [h.getMap store]⟩)

/-- Caller mutation `m[k] = r` on the map object at reference `m`. -/
def setMapEntry (h : JsHeap) (m : Nat) (k : String) (r : Nat) : JsHeap :=
  ⟨h.recs, h.maps.set m (objSet (h.getMap m) k r)⟩

/-- Caller mutation `delete m[k]` on the map object at reference `m`. -/
def deleteMapEntry (h : JsHeap) (m : Nat) (k : String) : JsHeap :=
  ⟨h.recs, h.maps.set m (objDelete (h.getMap m) k)⟩

/-- Caller mutation of a nested record object, e.g. `rec.name = n`. -/
def setRecName (h : JsHeap) (r : Nat) (n : Option String) : JsHeap :=
  ⟨h.recs.set r ⟨(h.getRec r).subscription, (h.getRec r).createdAt, n⟩, h.maps⟩

/-- The value-level content of the map object at reference `m`: each binding
dereferenced through the heap. -/
def viewMap (h : JsHeap) (m : Nat) : List (String × StoredSubscription) :=
  (h.getMap m).map (fun p => (p.1, h.getRec p.2))

/-- A concrete stored record used by concrete instances. -/
def sampleRec : StoredSubscription :=
  ⟨⟨"https://push.example/ep1", "p256dh-key", "auth-key"⟩, "2024-01-01T00:00:00Z", none⟩

/-- A second concrete record with a different endpoint. -/
def sampleRec2 : StoredSubscription :=
  ⟨⟨"https://push.example/ep2", "p256dh-key2", "auth-key2"⟩, "2024-01-02T00:00:00Z", some "phone"⟩

/-- A third concrete record. -/
def sampleRec3 : StoredSubscription :=
  ⟨⟨"https://push.example/ep3", "p256dh-key3", "auth-key3"⟩, "2024-01-03T00:00:00Z", none⟩

/-- A concrete heap: one record object and one map object binding key "a" to
it; map reference 0 is the store's own map. -/
def sampleHeap : JsHeap :=
  ⟨[sampleRec], [[("a", 0)]]⟩

/-- The outcome of the delivery attempt for one store entry. -/
def attemptOutcome (send : SendOracle) (payload : Json)
    (p : String × StoredSubscription) : SendResult :=
  send p.1 p.2.subscription payload

/-- Number of entries whose delivery attempt fails with a 404/410 status. -/
def permFailCount (st : VapushState) (send : SendOracle) (payload : Json) : Nat :=
  (st.subscriptions.filter (fun p => (attemptOutcome send payload p).isPerm)).length

/-- Number of entries whose delivery attempt fails with any other status. -/
def otherFailCount (st : VapushState) (send : SendOracle) (payload : Json) : Nat :=
  (st.subscriptions.filter (fun p =>
    !(attemptOutcome send payload p).isOk &&
    !(attemptOutcome send payload p).isPerm)).length

/-- The store content with exactly the permanently-failing entries removed. -/
def prunedSubs (st : VapushState) (send : SendOracle) (payload : Json) :
    List (String × StoredSubscription) :=
  st.subscriptions.filter (fun p => !(attemptOutcome send payload p).isPerm)

/-- A concrete delivery oracle for instances: subscriber "a" is permanently
gone (410), subscriber "b" hits a transient server error (500), everyone
else succeeds. -/
def sampleOracle : SendOracle := fun id _ _ =>
  if id = "a" then SendResult.error (some 410)
  else if id = "b" then SendResult.error (some 500)
  else SendResult.ok

/-! ### Map operation lemmas -/

theorem objSet_cons_ne (p : String × α) (rest : List (String × α)) (k : String)
    (v : α) (hp : ¬ p.1 = k) : objSet (p :: rest) k v = p :: objSet rest k v := by
  by_cases ha : rest.any (fun q => q.1 = k) = true
  · simp [objSet, List.any_cons, hp, ha]
  · simp [objSet, List.any_cons, hp, ha]

theorem objGet_objSet_self (m : List (String × α)) (k : String) (v : α) :
    objGet (objSet m k v) k = some v := by
  induction m with
  | nil => simp [objSet, objGet, List.find?]
  | cons p rest ih =>
      by_cases hp : p.1 = k
      · simp [objSet, objGet, List.any_cons, hp, List.find?]
      · rw [objSet_cons_ne p rest k v hp]
        simpa [objGet, List.find?, hp] using ih

theorem find?_map_overwrite (m : List (String × α)) (k k' : String) (v : α)
    (hne : k' ≠ k) :
    (m.map (fun p => if p.1 = k then (k, v) else p)).find? (fun p => p.1 = k') =
      m.find? (fun p => p.1 = k') := by
  induction m with
  | nil => rfl
  | cons q tail ih =>
      by_cases hq : q.1 = k
      · have h1 : ¬ ((k : String) = k') := fun h => hne h.symm
        have h2 : ¬ (q.1 = k') := by rw [hq]; exact h1
        simp [List.find?, hq, h1, h2, ih]
      · by_cases hq' : q.1 = k'
        · simp [List.find?, hq, hq', hne]
        · simp [List.find?, hq, hq', ih]

theorem objGet_objSet_ne (m : List (String × α)) (k k' : String) (v : α)
    (hne : k' ≠ k) : objGet (objSet m k v) k' = objGet m k' := by
  unfold objSet
  split
  · unfold objGet
    rw [find?_map_overwrite m k k' v hne]
  · unfold objGet
    rw [List.find?_append]
    have h2 : ¬ ((k : String) = k') := fun h => hne h.symm
    simp [List.find?, h2]

theorem objGet_objDelete_self (m : List (String × α)) (k : String) :
    objGet (objDelete m k) k = none := by
  induction m with
  | nil => rfl
  | cons p rest ih =>
      by_cases hp : p.1 = k
      · simp only [objDelete, List.filter] at ih ⊢
        rw [show (decide ¬ p.1 = k) = false by simp [hp]]
        exact ih
      · simp only [objDelete, objGet] at ih ⊢
        simp [List.filter, hp, List.find?, ih]

/-! ### JSON round-trip lemmas -/

theorem decodeSubscription_encode (s : Subscription) :
    decodeSubscription (encodeSubscription s) = some s := rfl

theorem decodeStoredSubscription_encode (s : StoredSubscription) :
    decodeStoredSubscription (encodeStoredSubscription s) = some s := by
  cases s with
  | mk sub ca nm => cases nm <;> rfl

theorem decodeSubs_encode (m : List (String × StoredSubscription)) :
    decodeSubs (encodeSubs m) = some m := by
  induction m with
  | nil => rfl
  | cons p rest ih =>
      simp only [decodeSubs, encodeSubs, List.map_cons, List.mapM_cons] at ih ⊢
      rw [decodeStoredSubscription_encode]
      simp only [Option.map_some, Option.bind_eq_bind, Option.some_bind] at ih ⊢
      rw [ih]
      rfl

theorem decodeKeys_encode (k : VapidKeys) :
    decodeKeys (encodeKeys k) = some k := rfl

/-! ### Claim theorems -/

/-- C3: for every valid pair (id, endpointDescriptor) and optional name,
`subscribe(id, endpointDescriptor, name)` followed by `list()` yields a map
whose entry for that id is exactly the record with that endpoint descriptor,
the fresh creation timestamp, and that name, overwriting any previous record
for the id. -/
theorem c3_subscribe_then_list (st : VapushState) (id : String)
    (sub : Subscription) (name : Option String) (now : String) :
    objGet (getSubscriptions (subscribe st id sub name now)) id =
      some ⟨sub, now, name⟩ := by
  simp [getSubscriptions, subscribe, saveSubscriptions, objGet_objSet_self]

/-- C4: for every subscription map (records with and without the optional
name), persisting it (`saveSubscriptions`) and reloading it
(`loadSubscriptions`, a simulated restart) yields a state with the identical
map. -/
theorem c4_save_load_roundtrip (st : VapushState) :
    loadSubscriptions (saveSubscriptions st) = some (saveSubscriptions st) := by
  simp [loadSubscriptions, saveSubscriptions, loadSubsFromFile, decodeSubs_encode]

/-- C6: key generation is idempotent — a second `loadOrCreateKeys` against
the location left by a first call returns exactly the first call's key pair
and file, whatever fresh pair `g2` the generator would produce, so the
second call loads rather than regenerates. -/
theorem c6_loadOrCreateKeys_idempotent (file : FileContent)
    (g1 g2 : String × String) (subject : String) :
    loadOrCreateKeys ((loadOrCreateKeys file g1 subject).2) g2 subject =
      loadOrCreateKeys file g1 subject ∧
    (loadOrCreateKeys ((loadOrCreateKeys FileContent.missing g1 subject).2)
        g2 subject).1 = some ⟨g1.1, g1.2, subject⟩ := by
  constructor
  · cases file <;> simp [loadOrCreateKeys, decodeKeys_encode]
  · simp [loadOrCreateKeys, decodeKeys_encode]

/-- C8: loading the subscription store never fails fatally — a missing or
unparseable `subscriptions.json` loads as the empty map (the error is caught
and defaulted), leaving a usable store state. -/
theorem c8_load_missing_or_corrupt_empty :
    (∀ st : VapushState, st.subFile = FileContent.missing →
      loadSubscriptions st = some ⟨[], st.subFile, st.saveCount⟩) ∧
    (∀ st : VapushState, st.subFile = FileContent.corrupt →
      loadSubscriptions st = some ⟨[], st.subFile, st.saveCount⟩) := by
  constructor <;> intro st h <;> simp [loadSubscriptions, h, loadSubsFromFile]

/-- Witness for C8 at concrete states: a missing file and a corrupt file
both load as the empty map. -/
theorem c8_witness :
    loadSubscriptions ⟨[("a", sampleRec)], FileContent.missing, 5⟩ =
      some ⟨[], FileContent.missing, 5⟩ ∧
    loadSubscriptions ⟨[], FileContent.corrupt, 2⟩ =
      some ⟨[], FileContent.corrupt, 2⟩ :=
  ⟨c8_load_missing_or_corrupt_empty.1 ⟨[("a", sampleRec)], FileContent.missing, 5⟩ rfl,
   c8_load_missing_or_corrupt_empty.2 ⟨[], FileContent.corrupt, 2⟩ rfl⟩

/-- C9: `pushTo` on an id not in the store returns false and leaves the
store unchanged, for every behavior of the delivery oracle — i.e. without
the delivery collaborator being consulted at all. -/
theorem c9_pushTo_unknown (st : VapushState) (id title body : String)
    (url : Option String) (send : SendOracle)
    (h : objGet st.subscriptions id = none) :
    pushTo st id title body url send = (false, st) := by
  simp [pushTo, h]

/-- Witness for C9: an empty store, a concrete id, and a concrete oracle. -/
theorem c9_witness :
    pushTo ⟨[], FileContent.missing, 0⟩ "a" "hello" "world" none
      (fun _ _ _ => SendResult.ok) = (false, ⟨[], FileContent.missing, 0⟩) :=
  c9_pushTo_unknown ⟨[], FileContent.missing, 0⟩ "a" "hello" "world" none
    (fun _ _ _ => SendResult.ok) rfl

/-- C10: `subscribe` for id leaves the stored record of every other id
exactly as it was — same descriptor, same creation timestamp, same name. -/
theorem c10_subscribe_frame (st : VapushState) (id id2 : String)
    (sub : Subscription) (name : Option String) (now : String)
    (h : id2 ≠ id) :
    objGet (subscribe st id sub name now).subscriptions id2 =
      objGet st.subscriptions id2 := by
  simp only [subscribe, saveSubscriptions]
  exact objGet_objSet_ne st.subscriptions id id2 ⟨sub, now, name⟩ h

/-- Witness for C10: subscribing "b" leaves the record of "a" unchanged. -/
theorem c10_witness :
    objGet (subscribe ⟨[("a", sampleRec)], FileContent.missing, 0⟩ "b"
      sampleRec2.subscription (some "phone") "2024-06-01").subscriptions "a" =
      objGet (⟨[("a", sampleRec)], FileContent.missing, 0⟩ : VapushState).subscriptions "a" :=
  c10_subscribe_frame ⟨[("a", sampleRec)], FileContent.missing, 0⟩ "b" "a"
    sampleRec2.subscription (some "phone") "2024-06-01" (by decide)

/-- C2: `unsubscribe(id)` returns whether the id was present; on an unknown
id it returns false and leaves the whole state (in-memory map and persisted
file) unchanged; on a known id it returns true, the state holds the map with
the id deleted, the file is rewritten with that map, and the id is absent
from a subsequent `list()`. -/
theorem c2_unsubscribe_spec (st : VapushState) (id : String) :
    ((unsubscribe st id).1 = (objGet st.subscriptions id).isSome) ∧
    (objGet st.subscriptions id = none → unsubscribe st id = (false, st)) ∧
    ((objGet st.subscriptions id).isSome = true →
      (unsubscribe st id).2 =
        ⟨objDelete st.subscriptions id,
         FileContent.content (encodeSubs (objDelete st.subscriptions id)),
         st.saveCount + 1⟩ ∧
      objGet (getSubscriptions (unsubscribe st id).2) id = none) := by
  cases h : objGet st.subscriptions id with
  | none => simp [unsubscribe, h]
  | some r =>
      refine ⟨?_, ?_, ?_⟩
      · simp [unsubscribe, h]
      · intro hn; exact absurd hn (by simp)
      · intro _
        constructor
        · simp [unsubscribe, h, saveSubscriptions]
        · simp [unsubscribe, h, saveSubscriptions, getSubscriptions,
            objGet_objDelete_self]

/-- Witness for C2: an unknown id leaves a concrete store untouched, and a
known id is gone from `list()` after removal. -/
theorem c2_witness :
    unsubscribe ⟨[], FileContent.missing, 0⟩ "a" =
      (false, ⟨[], FileContent.missing, 0⟩) ∧
    objGet (getSubscriptions
      (unsubscribe ⟨[("a", sampleRec)], FileContent.missing, 0⟩ "a").2) "a" = none :=
  ⟨(c2_unsubscribe_spec ⟨[], FileContent.missing, 0⟩ "a").2.1 rfl,
   ((c2_unsubscribe_spec ⟨[("a", sampleRec)], FileContent.missing, 0⟩ "a").2.2
      (by decide)).2⟩

/-- C7: secret comparison is exact string match — `checkSecret` accepts
exactly the stored secret; any other provided value (including none) makes
each of the subscribe, unsubscribe, list, and push routes answer 401 with
the store untouched and the operation not performed, while a matching value
makes each route perform its operation and answer 200. -/
theorem c7_secret_exact_match (secret : String) (provided : Option String)
    (id : String) (sub : Subscription) (name : Option String)
    (now title body : String) (url : Option String) (send : SendOracle)
    (st : VapushState) :
    (checkSecret provided secret = true ↔ provided = some secret) ∧
    (provided ≠ some secret →
      handleSubscribe secret provided id sub name now st = (401, st) ∧
      handleUnsubscribe secret provided id st = (401, none, st) ∧
      handleList secret provided st = (401, none, st) ∧
      handlePush secret provided title body url send st = (401, none, st)) ∧
    (provided = some secret →
      handleSubscribe secret provided id sub name now st =
        (200, subscribe st id sub name now) ∧
      handleUnsubscribe secret provided id st =
        (200, some (unsubscribe st id).1, (unsubscribe st id).2) ∧
      handleList secret provided st = (200, some (getSubscriptions st), st) ∧
      handlePush secret provided title body url send st =
        (200, some (push st title body url send).1, (push st title body url send).2)) := by
  refine ⟨?_, ?_, ?_⟩
  · simp [checkSecret]
  · intro h
    simp [handleSubscribe, handleUnsubscribe, handleList, handlePush, checkSecret, h]
  · intro h
    simp [handleSubscribe, handleUnsubscribe, handleList, handlePush, checkSecret, h]

/-- Witness for C7: with stored secret "s", the provided value "t" is
rejected with 401 and no mutation, and the provided value "s" is accepted. -/
theorem c7_witness :
    handleSubscribe "s" (some "t") "a" sampleRec.subscription none "now"
      ⟨[], FileContent.missing, 0⟩ = (401, ⟨[], FileContent.missing, 0⟩) ∧
    handleList "s" (some "s") ⟨[], FileContent.missing, 0⟩ =
      (200, some (getSubscriptions ⟨[], FileContent.missing, 0⟩),
        ⟨[], FileContent.missing, 0⟩) :=
  ⟨((c7_secret_exact_match "s" (some "t") "a" sampleRec.subscription none
      "now" "title" "body" none (fun _ _ _ => SendResult.ok)
      ⟨[], FileContent.missing, 0⟩).2.1 (by decide)).1,
   ((c7_secret_exact_match "s" (some "s") "a" sampleRec.subscription none
      "now" "title" "body" none (fun _ _ _ => SendResult.ok)
      ⟨[], FileContent.missing, 0⟩).2.2 rfl).2.2.1⟩

/-- C5 counterexample: `getSubscriptions` returns a SHALLOW copy.  In the
concrete heap `sampleHeap`, taking the snapshot and then mutating the nested
record reached through the snapshot's own "a" binding changes what the
store's map shows: the claim that every mutation of the returned value
(including nested records) leaves the store unchanged is false. -/
theorem c5_counterexample :
    viewMap (setRecName (getSubscriptionsHeap sampleHeap 0).2
        ((objGet ((getSubscriptionsHeap sampleHeap 0).2.getMap
            (getSubscriptionsHeap sampleHeap 0).1) "a").getD 0)
        (some "mutated")) 0 ≠
      viewMap sampleHeap 0 := by decide

/-- C5 amended: the returned value is a fresh map object distinct from the
store's map, carrying the same bindings at call time; top-level mutations of
it (entry assignment or deletion) leave the store's map — both its bindings
and its dereferenced content — unchanged.  (Nested records are shared, per
the counterexample.) -/
theorem c5_shallow_copy_frame (h : JsHeap) (store : Nat)
    (hs : store < h.maps.length) :
    ((getSubscriptionsHeap h store).1 ≠ store) ∧
    ((getSubscriptionsHeap h store).2.getMap (getSubscriptionsHeap h store).1 =
      h.getMap store) ∧
    (∀ (k : String) (r : Nat),
      (setMapEntry (getSubscriptionsHeap h store).2
        (getSubscriptionsHeap h store).1 k r).getMap store = h.getMap store) ∧
    (∀ (k : String),
      (deleteMapEntry (getSubscriptionsHeap h store).2
        (getSubscriptionsHeap h store).1 k).getMap store = h.getMap store) ∧
    (∀ (k : String) (r : Nat),
      viewMap (setMapEntry (getSubscriptionsHeap h store).2
        (getSubscriptionsHeap h store).1 k r) store = viewMap h store) ∧
    (∀ (k : String),
      viewMap (deleteMapEntry (getSubscriptionsHeap h store).2
        (getSubscriptionsHeap h store).1 k) store = viewMap h store) := by
  have hne : h.maps.length ≠ store := ne_of_gt hs
  have hbase : ∀ (l : List (String × Nat)),
      ((h.maps ++ [h.maps[store]?.getD []]).set h.maps.length l)[store]? =
        h.maps[store]? := by
    intro l
    rw [List.getElem?_set_ne hne, List.getElem?_append]
    simp [hs]
  have hset : ∀ (k : String) (r : Nat),
      (setMapEntry (getSubscriptionsHeap h store).2
        (getSubscriptionsHeap h store).1 k r).getMap store = h.getMap store := by
    intro k r
    simp only [setMapEntry, getSubscriptionsHeap, JsHeap.getMap,
      List.getD_eq_getElem?_getD]
    rw [hbase]
  have hdel : ∀ (k : String),
      (deleteMapEntry (getSubscriptionsHeap h store).2
        (getSubscriptionsHeap h store).1 k).getMap store = h.getMap store := by
    intro k
    simp only [deleteMapEntry, getSubscriptionsHeap, JsHeap.getMap,
      List.getD_eq_getElem?_getD]
    rw [hbase]
  refine ⟨hne, ?_, hset, hdel, ?_, ?_⟩
  · simp [getSubscriptionsHeap, JsHeap.getMap, List.getD_eq_getElem?_getD,
      List.getElem?_concat_length]
  · intro k r
    simp only [viewMap, JsHeap.getRec, hset k r]
    rfl
  · intro k
    simp only [viewMap, JsHeap.getRec, hdel k]
    rfl

/-- Witness for C5 amended: in the concrete heap, the snapshot is a new map
object and a top-level entry assignment on it leaves the store's content
unchanged. -/
theorem c5_witness :
    (getSubscriptionsHeap sampleHeap 0).1 ≠ 0 ∧
    viewMap (setMapEntry (getSubscriptionsHeap sampleHeap 0).2
      (getSubscriptionsHeap sampleHeap 0).1 "b" 0) 0 = viewMap sampleHeap 0 :=
  ⟨(c5_shallow_copy_frame sampleHeap 0 (by decide)).1,
   (c5_shallow_copy_frame sampleHeap 0 (by decide)).2.2.2.2.1 "b" 0⟩

/-! ### Dispatcher lemmas -/

theorem pushLoop_eq (send : SendOracle) (payload : Json)
    (entries : List (String × StoredSubscription)) :
    pushLoop send payload entries =
      ((entries.filter (fun p => (attemptOutcome send payload p).isOk)).length,
       (entries.filter (fun p => !(attemptOutcome send payload p).isOk)).length,
       (entries.filter (fun p => (attemptOutcome send payload p).isPerm)).map Prod.fst) := by
  induction entries with
  | nil => rfl
  | cons p rest ih =>
      cases hsend : send p.1 p.2.subscription payload with
      | ok =>
          simp [pushLoop, hsend, ih, attemptOutcome, SendResult.isOk,
            SendResult.isPerm, List.filter]
      | error c =>
          cases hg : isGone c
          · simp [pushLoop, hsend, ih, attemptOutcome, SendResult.isOk,
              SendResult.isPerm, List.filter, hg]
          · simp [pushLoop, hsend, ih, attemptOutcome, SendResult.isOk,
              SendResult.isPerm, List.filter, hg]

theorem foldl_objDelete_eq (ks : List String) (m : List (String × α)) :
    ks.foldl objDelete m = m.filter (fun p => !(ks.contains p.1)) := by
  induction ks generalizing m with
  | nil => simp
  | cons k rest ih =>
      rw [List.foldl_cons, ih, objDelete, List.filter_filter]
      apply List.filter_congr
      intro p _
      by_cases hk : p.1 = k <;> simp [hk]

theorem perm_keys_contains (entries : List (String × StoredSubscription))
    (f : String × StoredSubscription → Bool)
    (hnd : (entries.map Prod.fst).Nodup) (p : String × StoredSubscription)
    (hp : p ∈ entries) :
    ((entries.filter f).map Prod.fst).contains p.1 = f p := by
  cases hfp : f p
  · apply Bool.eq_false_iff.2
    intro hcon
    have hmem : p.1 ∈ (entries.filter f).map Prod.fst := List.elem_iff.1 hcon
    obtain ⟨q, hq, hqe⟩ := List.mem_map.1 hmem
    have hqent : q ∈ entries := (List.mem_filter.1 hq).1
    have hqf : f q = true := (List.mem_filter.1 hq).2
    have : q = p := List.inj_on_of_nodup_map hnd hqent hp hqe
    rw [this, hfp] at hqf
    cases hqf
  · apply List.elem_iff.2
    exact List.mem_map.2 ⟨p, List.mem_filter.2 ⟨hp, hfp⟩, rfl⟩

theorem length_filter_split (l : List α) (p q : α → Bool)
    (himp : ∀ a, p a = true → q a = true) :
    (l.filter q).length =
      (l.filter p).length + (l.filter (fun a => q a && !p a)).length := by
  induction l with
  | nil => rfl
  | cons a t ih =>
      cases hp : p a
      · cases hq : q a
        · simp [List.filter, hp, hq, ih]
        · simp [List.filter, hp, hq, ih]
          omega
      · have hq := himp a hp
        simp [List.filter, hp, hq, ih]
        omega

/-- C1: for every store whose N subscriber ids are distinct and every
pattern of delivery outcomes, `push` returns success = N - K - otherFailures
and failed = K + otherFailures, where K counts the attempts rejected with a
404/410 status; afterwards the store holds exactly the entries whose attempt
was not a permanent failure (non-permanent failures keep their subscriber),
and the file is rewritten exactly once with the pruned map when K > 0 and
not touched at all when K = 0. -/
theorem c1_push_counts_and_prune (st : VapushState) (title body : String)
    (url : Option String) (send : SendOracle)
    (hnd : (st.subscriptions.map Prod.fst).Nodup) :
    push st title body url send =
      ((st.subscriptions.length
          - permFailCount st send (encodePayload title body url)
          - otherFailCount st send (encodePayload title body url),
        permFailCount st send (encodePayload title body url)
          + otherFailCount st send (encodePayload title body url)),
       ⟨prunedSubs st send (encodePayload title body url),
        if 0 < permFailCount st send (encodePayload title body url) then
          FileContent.content
            (encodeSubs (prunedSubs st send (encodePayload title body url)))
        else st.subFile,
        st.saveCount +
          if 0 < permFailCount st send (encodePayload title body url) then 1
          else 0⟩) := by
  have himp : ∀ p : String × StoredSubscription,
      (attemptOutcome send (encodePayload title body url) p).isPerm = true →
      (!(attemptOutcome send (encodePayload title body url) p).isOk) = true := by
    intro p hp
    cases h : attemptOutcome send (encodePayload title body url) p with
    | ok => rw [h] at hp; cases hp
    | error c => simp [SendResult.isOk]
  have hsum := List.length_eq_length_filter_add (l := st.subscriptions)
      (fun p => (attemptOutcome send (encodePayload title body url) p).isOk)
  have hsplit := length_filter_split st.subscriptions
      (fun p => (attemptOutcome send (encodePayload title body url) p).isPerm)
      (fun p => !(attemptOutcome send (encodePayload title body url) p).isOk) himp
  simp only [] at hsplit
  have hprune :
      st.subscriptions.filter (fun p =>
        !((st.subscriptions.filter (fun q =>
            (attemptOutcome send (encodePayload title body url) q).isPerm)).map
              Prod.fst).contains p.1) =
      prunedSubs st send (encodePayload title body url) := by
    apply List.filter_congr
    intro p hp
    rw [perm_keys_contains st.subscriptions _ hnd p hp]
  simp only [push, permFailCount, otherFailCount, prunedSubs] at *
  rw [pushLoop_eq]
  dsimp only
  rw [foldl_objDelete_eq, List.length_map, hprune]
  by_cases hc : 0 < (st.subscriptions.filter (fun p =>
      (attemptOutcome send (encodePayload title body url) p).isPerm)).length
  · simp only [gt_iff_lt, hc, if_pos, saveSubscriptions]
    refine congrArg₂ Prod.mk (congrArg₂ Prod.mk ?_ ?_) rfl
    · omega
    · omega
  · simp only [gt_iff_lt, hc, if_neg, not_false_eq_true, saveSubscriptions]
    refine congrArg₂ Prod.mk (congrArg₂ Prod.mk ?_ ?_) ?_
    · omega
    · omega
    · simp

/-- Witness for C1: three subscribers with distinct ids; "a" fails with 410,
"b" fails with 500, "c" succeeds — push returns success 1 and failed 2,
exactly "a" is removed, "b" stays, and the file is rewritten exactly once
with the pruned map. -/
theorem c1_witness :
    ((([("a", sampleRec), ("b", sampleRec2), ("c", sampleRec3)] :
        List (String × StoredSubscription)).map Prod.fst).Nodup) ∧
    push ⟨[("a", sampleRec), ("b", sampleRec2), ("c", sampleRec3)],
        FileContent.missing, 0⟩ "t" "m" none sampleOracle =
      ((1, 2),
       ⟨[("b", sampleRec2), ("c", sampleRec3)],
        FileContent.content (encodeSubs [("b", sampleRec2), ("c", sampleRec3)]),
        1⟩) :=
  ⟨by decide,
   c1_push_counts_and_prune
     ⟨[("a", sampleRec), ("b", sampleRec2), ("c", sampleRec3)],
       FileContent.missing, 0⟩ "t" "m" none sampleOracle (by decide)⟩
